import Mathlib

/-!
Verification development for the matrufsc3 scraper core
(src/scraper/src/lib.rs and src/scraper/src/parse.rs).

The Rust code is shallowly embedded:
* machine integers are `Nat`/`Int` with explicit range checks where the
  source's `str::parse::<u32>` / `str::parse::<i32>` can overflow;
* fallible Rust code returning `Result` becomes `Except Err`;
* code that can also panic (slice indexing with `fields[i]`) returns
  `PResult`, which has a dedicated `panicked` outcome;
* the external HTML library (crate `select`) is embedded as a small
  document tree (`HNode`) with the querying capabilities the source
  uses (find by tag/attribute, descendants in document order, text and
  inner-html extraction);
* the network is embedded as a pure oracle of page bodies.

String manipulation is modelled on `List Char` so that every operation
is structural and evaluates inside the kernel; ASCII inputs behave as in
Rust (`str::trim`, `str::lines`, `str::splitn`).
-/

deriving instance DecidableEq for Except

namespace Matrufsc

/-- The error kinds of the scraper: the three variants of `ParseError` in
parse.rs plus the integer-parse and chrono time-parse failures that the
source wraps through `anyhow`. -/
inductive Err where
  | tableNotFound
  | invalidTime
  | noCourseTitle
  | parseIntError
  | timeParseError
deriving DecidableEq

/-- chrono's `Weekday` enum. -/
inductive Weekday where
  | sun
  | mon
  | tue
  | wed
  | thu
  | fri
  | sat
deriving DecidableEq

/-- chrono's `NaiveTime`, restricted to the hour/minute components that
`%H%M` parsing can produce (seconds default to zero). -/
structure NaiveTime where
  hour : Nat
  minute : Nat
deriving DecidableEq

/-- `Course` from parse.rs. -/
structure Course where
  id : String
  title : String
  credits : Nat
deriving DecidableEq

/-- `Time` from parse.rs: one weekly time slot. -/
structure Time where
  weekday : Weekday
  time : NaiveTime
  credits : Nat
  place : String
deriving DecidableEq

/-- `Class` from parse.rs. -/
structure Class where
  id : String
  course : Course
  labels : List String
  capacity : Nat
  enrolled : Nat
  waiting : Nat
  times : List Time
  professors : List String
deriving DecidableEq

/-- Outcome of Rust code that can return `Ok`, return `Err`, or panic
(out-of-bounds indexing). -/
inductive PResult (α : Type) where
  | panicked
  | error (e : Err)
  | ok (a : α)
deriving DecidableEq

/-! ### Character-list models of the Rust `str` operations used -/

/-- Numeric value of a decimal digit character. -/
def digitVal (c : Char) : Nat := c.toNat - 48

/-- Value of a nonempty all-digit character list, `none` otherwise. -/
def parseDigits (cs : List Char) : Option Nat :=
  if cs ≠ [] ∧ cs.all Char.isDigit then
    some (cs.foldl (fun a c => a * 10 + digitVal c) 0)
  else none

/-- Models `str::parse::<u32>`: optional `+` sign, decimal digits,
value must fit in 32 bits. -/
def parseU32 (s : String) : Option Nat :=
  let cs := match s.data with
    | '+' :: rest => rest
    | cs => cs
  match parseDigits cs with
  | some n => if n < 2 ^ 32 then some n else none
  | none => none

/-- Models `str::parse::<i32>`: optional sign, decimal digits, value
must fit in a signed 32-bit integer. -/
def parseI32 (s : String) : Option Int :=
  match s.data with
  | '+' :: rest =>
    match parseDigits rest with
    | some n => if n < 2 ^ 31 then some (n : Int) else none
    | none => none
  | '-' :: rest =>
    match parseDigits rest with
    | some n => if n ≤ 2 ^ 31 then some (-(n : Int)) else none
    | none => none
  | cs =>
    match parseDigits cs with
    | some n => if n < 2 ^ 31 then some (n : Int) else none
    | none => none

/-- Splits a character list at every occurrence of a separator
character; always returns at least one (possibly empty) part. -/
def splitChar (sep : Char) : List Char → List (List Char)
  | [] => [[]]
  | c :: rest =>
    if c = sep then [] :: splitChar sep rest
    else
      match splitChar sep rest with
      | [] => [[c]]
      | seg :: segs => (c :: seg) :: segs

/-- Removes one trailing carriage return, as Rust `lines` does on each
line that was terminated by a newline. -/
def stripCR (cs : List Char) : List Char :=
  if cs.getLast? = some '\r' then cs.dropLast else cs

/-- Models Rust `str::lines`: split at `'\n'`, strip a `'\r'` preceding
each stripped `'\n'`, and drop the final empty part (so the trailing
line terminator is optional and the empty string has no lines).
Interior empty lines are kept. -/
def rustLines (s : String) : List String :=
  let parts := splitChar '\n' s.data
  let last := parts.getLastD []
  ((parts.dropLast.map stripCR) ++ (if last = [] then [] else [last])).map String.mk

/-- Models Rust `str::trim` (ASCII whitespace). -/
def rustTrim (s : String) : String :=
  String.mk (((s.data.dropWhile Char.isWhitespace).reverse.dropWhile Char.isWhitespace).reverse)

/-- Index of the first occurrence of `pat` in a character list. -/
def findSub (pat : List Char) : List Char → Option Nat
  | [] => if pat = [] then some 0 else none
  | c :: rest =>
    if pat.isPrefixOf (c :: rest) then some 0
    else (findSub pat rest).map (· + 1)

/-- The inner helper `split_once` of `Time::from_str` in parse.rs:
`s.splitn(2, pat)` yields two parts exactly when `pat` occurs in `s`
(the part before the first occurrence and everything after it);
otherwise the helper fails with `InvalidTime`. -/
def split_once (s pat : String) : Except Err (String × String) :=
  match findSub pat.data s.data with
  | none => .error .invalidTime
  | some i => .ok (String.mk (s.data.take i), String.mk (s.data.drop (i + pat.data.length)))

/-- The weekday match inside `Time::from_str` (parse.rs lines 66-75):
codes 1-7 map to Sunday..Saturday, anything else is `InvalidTime`. -/
def parse_weekday (n : Int) : Except Err Weekday :=
  if n = 1 then .ok .sun
  else if n = 2 then .ok .mon
  else if n = 3 then .ok .tue
  else if n = 4 then .ok .wed
  else if n = 5 then .ok .thu
  else if n = 6 then .ok .fri
  else if n = 7 then .ok .sat
  else .error .invalidTime

/-- Greedy 1-2 digit numeric field, as chrono parses `%H` and `%M`. -/
def take2Digits : List Char → Option (Nat × List Char)
  | [] => none
  | c :: rest =>
    if c.isDigit then
      match rest with
      | c2 :: rest2 =>
        if c2.isDigit then some (10 * digitVal c + digitVal c2, rest2)
        else some (digitVal c, rest)
      | [] => some (digitVal c, [])
    else none

/-- Models `chrono::NaiveTime::parse_from_str(time, "%H%M")`: two
greedy 1-2 digit fields, hour below 24, minute below 60, and the whole
input must be consumed. -/
def parseHHMM (s : String) : Except Err NaiveTime :=
  match take2Digits s.data with
  | none => .error .timeParseError
  | some (h, rest) =>
    match take2Digits rest with
    | none => .error .timeParseError
    | some (m, rest2) =>
      if h < 24 ∧ m < 60 ∧ rest2 = [] then .ok ⟨h, m⟩ else .error .timeParseError

/-- `Time::from_str` from parse.rs: split on `" / "` into schedule and
place, split the schedule on `"."` into weekday code and time part, map
the code through the weekday match, split the time part on `"-"` into
clock time and credit span (trimmed, parsed as unsigned), and parse the
clock time as `%H%M`. -/
def Time.from_str (s : String) : Except Err Time :=
  match split_once s " / " with
  | .error e => .error e
  | .ok (time1, place) =>
    match split_once time1 "." with
    | .error e => .error e
    | .ok (wdStr, time2) =>
      match parseI32 wdStr with
      | none => .error .parseIntError
      | some code =>
        match parse_weekday code with
        | .error e => .error e
        | .ok weekday =>
          match split_once time2 "-" with
          | .error e => .error e
          | .ok (clock, credStr) =>
            match parseU32 (rustTrim credStr) with
            | none => .error .parseIntError
            | some credits =>
              match parseHHMM clock with
              | .error e => .error e
              | .ok time => .ok { weekday := weekday, time := time, credits := credits, place := place }

/-- `fields[12].lines().map(str::trim).map(str::parse).collect::<Result<_>>()`:
parses each schedule line, stopping at the first failure. -/
def collectTimes : List String → Except Err (List Time)
  | [] => .ok []
  | s :: rest =>
    match Time.from_str s with
    | .error e => .error e
    | .ok t =>
      match collectTimes rest with
      | .error e => .error e
      | .ok ts => .ok (t :: ts)

/-- The waiting-count expression of `Class::from_html`: empty cell
defaults to zero, otherwise the cell must parse as an unsigned integer. -/
def parseWaiting (s : String) : Except Err Nat :=
  if s = "" then .ok 0
  else
    match parseU32 s with
    | none => .error .parseIntError
    | some n => .ok n

/-- Is the character one of the bracket characters stripped from labels? -/
def isBracketChar (c : Char) : Bool := c = '[' || c = ']'

/-- `label.trim_matches(['[', ']'].as_ref())`: strip leading and
trailing bracket characters. -/
def stripBrackets (s : String) : String :=
  String.mk (((s.data.dropWhile isBracketChar).reverse.dropWhile isBracketChar).reverse)

/-- The body of `Class::from_html` (parse.rs lines 92-148) acting on the
already-extracted, trimmed `td` cell texts of one row, in the source's
evaluation order.  `fields[i]` indexing is Rust slice indexing: a
missing index is a panic, not an error. -/
def Class.fromFields (fields : List String) : PResult Class :=
  match fields.get? 3 with
  | none => .panicked
  | some course_id =>
  match fields.get? 4 with
  | none => .panicked
  | some class_id =>
  match fields.get? 5 with
  | none => .panicked
  | some cell5 =>
  match ((rustLines cell5).map rustTrim).head? with
  | none => .error .noCourseTitle
  | some course_title =>
  let labels := ((rustLines cell5).map rustTrim).tail.map stripBrackets
  match fields.get? 6 with
  | none => .panicked
  | some cell6 =>
  match parseU32 cell6 with
  | none => .error .parseIntError
  | some credits =>
  match fields.get? 7 with
  | none => .panicked
  | some cell7 =>
  match parseU32 cell7 with
  | none => .error .parseIntError
  | some capacity =>
  match fields.get? 8 with
  | none => .panicked
  | some cell8 =>
  match parseU32 cell8 with
  | none => .error .parseIntError
  | some enrolled =>
  match fields.get? 11 with
  | none => .panicked
  | some cell11 =>
  match parseWaiting cell11 with
  | .error e => .error e
  | .ok waiting =>
  match fields.get? 12 with
  | none => .panicked
  | some cell12 =>
  match collectTimes ((rustLines cell12).map rustTrim) with
  | .error e => .error e
  | .ok times =>
  match fields.get? 13 with
  | none => .panicked
  | some cell13 =>
  .ok
    { id := class_id
      course := { id := course_id, title := course_title, credits := credits }
      labels := labels
      capacity := capacity
      enrolled := enrolled
      waiting := waiting
      times := times
      professors := (rustLines cell13).map rustTrim }

/-! ### The HTML document tree: the `select` crate capabilities the source uses -/

/-- A parsed HTML node: the view of the external `select` crate's
document tree that parse.rs and lib.rs query. -/
inductive HNode where
  | text (s : String)
  | elem (tag : String) (attrs : List (String × String)) (children : List HNode)

mutual
/-- A node followed by all of its descendants, in document order. -/
def selfAndDescendants : HNode → List HNode
  | .text s => [.text s]
  | .elem t a cs => .elem t a cs :: descendantsList cs
/-- All nodes of a forest, in document order. -/
def descendantsList : List HNode → List HNode
  | [] => []
  | n :: ns => selfAndDescendants n ++ descendantsList ns
end

/-- The descendants of one node in document order, as iterated by
`node.find(...)` in the `select` crate. -/
def descendantsOf : HNode → List HNode
  | .text _ => []
  | .elem _ _ cs => descendantsList cs

/-- Every node of a document in document order, as iterated by
`document.find(...)`. -/
def allNodes (doc : List HNode) : List HNode := descendantsList doc

mutual
/-- `node.text()`: the concatenated text content of the subtree. -/
def textOf : HNode → String
  | .text s => s
  | .elem _ _ cs => textListOf cs
/-- Concatenated text content of a forest. -/
def textListOf : List HNode → String
  | [] => ""
  | n :: ns => textOf n ++ textListOf ns
end

/-- Attribute serialization used by `html()`. -/
def renderAttrs (attrs : List (String × String)) : String :=
  attrs.foldl (fun acc kv => acc ++ " " ++ kv.1 ++ "=\"" ++ kv.2 ++ "\"") ""

mutual
/-- `node.html()`: serialization of a node. -/
def renderNode : HNode → String
  | .text s => s
  | .elem t a cs => "<" ++ t ++ renderAttrs a ++ ">" ++ renderList cs ++ "</" ++ t ++ ">"
/-- Serialization of a forest. -/
def renderList : List HNode → String
  | [] => ""
  | n :: ns => renderNode n ++ renderList ns
end

/-- `node.inner_html()`: serialization of the children. -/
def innerHtml : HNode → String
  | .text _ => ""
  | .elem _ _ cs => renderList cs

/-- `node.attr(key)`: first attribute with the given name. -/
def attrOf (n : HNode) (key : String) : Option String :=
  match n with
  | .text _ => none
  | .elem _ attrs _ => (attrs.find? (fun kv => kv.1 = key)).map (fun kv => kv.2)

/-- The `Name(tag)` predicate. -/
def isTag (tag : String) : HNode → Bool
  | .elem t _ _ => t = tag
  | .text _ => false

/-- The predicate `Name("tbody").and(Attr("id", "formBusca:dataTable:tb"))`
of `classes_from_html`. -/
def isTargetTbody (n : HNode) : Bool :=
  isTag "tbody" n && attrOf n "id" == some "formBusca:dataTable:tb"

/-- The cell texts of one row: `row.find(Name("td"))` mapped through
`node.text().trim()`, in document order. -/
def tdTexts (row : HNode) : List String :=
  ((descendantsOf row).filter (isTag "td")).map (fun n => rustTrim (textOf n))

/-- `Class::from_html` on a row node: extract the trimmed `td` cell
texts and map the fixed cell positions. -/
def Class.from_html (row : HNode) : PResult Class :=
  Class.fromFields (tdTexts row)

/-- Row parses sequenced as `collect::<Result<Vec<_>>>` does: the first
failing row aborts the page. -/
def collectClasses : List HNode → PResult (List Class)
  | [] => .ok []
  | r :: rs =>
    match Class.from_html r with
    | .panicked => .panicked
    | .error e => .error e
    | .ok c =>
      match collectClasses rs with
      | .panicked => .panicked
      | .error e => .error e
      | .ok cs => .ok (c :: cs)

/-- `classes_from_html` from parse.rs, acting on the parsed document
tree (the HTML parse `Document::from(source)` is the external library's
job): the first `tbody` with the fixed id, else `TableNotFound`; on
success every `tr` descendant of that table is parsed in order. -/
def classes_from_html (doc : List HNode) : PResult (List Class) :=
  match (allNodes doc).find? isTargetTbody with
  | none => .error .tableNotFound
  | some table => collectClasses ((descendantsOf table).filter (isTag "tr"))

mutual
/-- Every (node, parent) pair of a subtree in document order. -/
def nodeWithParent (parent : Option HNode) : HNode → List (HNode × Option HNode)
  | .text s => [(.text s, parent)]
  | .elem t a cs => (.elem t a cs, parent) :: nodesWithParent (some (.elem t a cs)) cs
/-- Every (node, parent) pair of a forest in document order. -/
def nodesWithParent (parent : Option HNode) : List HNode → List (HNode × Option HNode)
  | [] => []
  | n :: ns => nodeWithParent parent n ++ nodesWithParent parent ns
end

/-- The predicate `Name("span").and(Attr("id", "formBusca:dataTableGroup"))`. -/
def isGroupSpan (n : HNode) : Bool :=
  isTag "span" n && attrOf n "id" == some "formBusca:dataTableGroup"

/-- The probe selector of `Cagr::page_count`: `.child(Name("span"))`
matches a span node whose parent is the result-count group span, and
`.next()` takes the first match in document order. -/
def countNode (doc : List HNode) : Option HNode :=
  ((nodesWithParent none doc).find?
    (fun p => isTag "span" p.1 && p.2.elim false isGroupSpan)).map (fun p => p.1)

/-- The result count read by `Cagr::page_count`:
`.and_then(|node| node.inner_html().parse::<u32>().ok()).unwrap_or(0)`. -/
def countEntries (doc : List HNode) : Nat :=
  ((countNode doc).bind (fun n => parseU32 (innerHtml n))).getD 0

/-! ### The f64 page-count computation

`(f64::from(entries) / 50.).ceil() as usize` is embedded exactly:
`u32` to `f64` conversion is lossless, the division is a single
correctly rounded binary64 operation, `ceil` of a binary64 value below
`2^52` is exact, and the `usize` cast of the nonnegative result is
`Int.toNat`.  Rounding is modelled on `ℚ`. -/

/-- The exponent of the unit in the last place of the binary64 number
nearest to a positive rational `q` (53-bit significand). -/
def fpExp (q : ℚ) : ℤ := Int.log 2 q - 52

/-- Correctly rounded binary64 value of `q`, for `q` in the positive
normal range (or zero).  `round` on `ℚ` breaks ties upward while IEEE
breaks ties to even, but every theorem below only uses the bound
`|fpRound q - q| ≤ ulp/2`, which holds under either rule, so the
difference cannot affect any result proved here. -/
def fpRound (q : ℚ) : ℚ := (round (q / 2 ^ fpExp q) : ℤ) * 2 ^ fpExp q

/-- The arithmetic core of `Cagr::page_count`:
`(f64::from(entries) / 50.).ceil() as usize`. -/
def pages_of_entries (entries : Nat) : Nat :=
  (⌈fpRound ((entries : ℚ) / 50)⌉).toNat

/-- The `Campus` enum from lib.rs. -/
inductive Campus where
  | EAD
  | FLO
  | JOI
  | CBS
  | ARA
  | BLN
deriving DecidableEq

/-- The numeric form code of each campus (`campus as u32` in
`form_data`). -/
def Campus.code : Campus → Nat
  | .EAD => 0
  | .FLO => 1
  | .JOI => 2
  | .CBS => 3
  | .ARA => 4
  | .BLN => 5

/-- The `Cagr` session struct from lib.rs.  The cookie-carrying HTTP
client is external state; campus and term are bound at construction. -/
structure Cagr where
  campus : Campus
  term : String

/-- `Cagr::page_count`, given the already-fetched probe-response
document: extract the result count (defaulting to zero) and apply the
f64 page computation.  After the fetch, no failure path remains, hence
the unconditional `Ok`. -/
def Cagr.page_count (doc : List HNode) : Except Err Nat :=
  .ok (pages_of_entries (countEntries doc))

/-- The page loop of `Cagr::scrape` over the remaining page indices.
The network is a pure oracle `fetch` from page index to response body;
`dom` is the external HTML parser (`Document::from`).  Each body is
compared byte-for-byte with the immediately preceding page's body
before being parsed; on equality the loop breaks with the entries
accumulated so far. -/
def scrapeGo (dom : String → List HNode) (fetch : Nat → String) :
    List Nat → Option String → List Class → PResult (List Class)
  | [], _, entries => .ok entries
  | pageIndex :: rest, previous, entries =>
    let contents := fetch pageIndex
    if previous = some contents then .ok entries
    else
      match classes_from_html (dom contents) with
      | .panicked => .panicked
      | .error e => .error e
      | .ok new => scrapeGo dom fetch rest (some contents) (entries ++ new)

/-- `Cagr::scrape`: iterate page indices `1..=pageCount` (the bound is
the result of the page-count probe), stop early on a repeated body, and
return the accumulated classes with the session's campus and term. -/
def Cagr.scrape (c : Cagr) (dom : String → List HNode) (fetch : Nat → String)
    (pageCount : Nat) : PResult (Campus × String × List Class) :=
  match scrapeGo dom fetch ((List.range pageCount).map (· + 1)) none [] with
  | .panicked => .panicked
  | .error e => .error e
  | .ok entries => .ok (c.campus, c.term, entries)

/-- `scrape_last_n_terms` from lib.rs: one task per (term, campus) pair
over the first `n` discovered terms, where `run` embeds the composed
session future `Cagr::new(campus, term).and_then(Cagr::scrape)`, so each
pair's outcome is that session's own `Result`.
`FuturesUnordered::collect` gathers every task's outcome without
short-circuiting; its completion order is unspecified in the source, and
the embedding lists the outcomes in submission order. -/
def scrape_last_n_terms (run : Campus → String → PResult (Campus × String × List Class))
    (n : Nat) (terms : List String) (campi : List Campus) :
    List (PResult (Campus × String × List Class)) :=
  (terms.take n).flatMap (fun term => campi.map (fun campus => run campus term))

/-! ### Concrete documents, rows and oracles used by the witnesses -/

/-- A table cell holding one text node. -/
def tdCell (s : String) : HNode := .elem "td" [] [.text s]

/-- A well-formed result row (first page of the witness site). -/
def wRowA : HNode := .elem "tr" []
  [tdCell "x", tdCell "x", tdCell "x", tdCell "MTM3101", tdCell "01208A",
   tdCell "Calculo", tdCell "4", tdCell "50", tdCell "30", tdCell "",
   tdCell "", tdCell "", tdCell "", tdCell "Ana"]

/-- A page document containing the target table with row `wRowA`. -/
def wDocA : List HNode :=
  [.elem "html" [] [.elem "tbody" [("id", "formBusca:dataTable:tb")] [wRowA]]]

/-- The class parsed from `wRowA`. -/
def wClassA : Class :=
  { id := "01208A"
    course := { id := "MTM3101", title := "Calculo", credits := 4 }
    labels := []
    capacity := 50
    enrolled := 30
    waiting := 0
    times := []
    professors := ["Ana"] }

/-- A second well-formed result row (second page of the witness site). -/
def wRowB : HNode := .elem "tr" []
  [tdCell "y", tdCell "y", tdCell "y", tdCell "FSC5002", tdCell "02208B",
   tdCell "Fisica", tdCell "6", tdCell "40", tdCell "40", tdCell "",
   tdCell "", tdCell "2", tdCell "", tdCell "Bruno"]

/-- A page document containing the target table with row `wRowB`. -/
def wDocB : List HNode :=
  [.elem "html" [] [.elem "tbody" [("id", "formBusca:dataTable:tb")] [wRowB]]]

/-- The class parsed from `wRowB`. -/
def wClassB : Class :=
  { id := "02208B"
    course := { id := "FSC5002", title := "Fisica", credits := 6 }
    labels := []
    capacity := 40
    enrolled := 40
    waiting := 2
    times := []
    professors := ["Bruno"] }

/-- The witness HTML parser: body "pageA" parses to the document with
`wRowA`, any other body to the one with `wRowB`. -/
def wDom : String → List HNode := fun s => if s = "pageA" then wDocA else wDocB

/-- The trimmed cell texts of `wRowA`. -/
def wRowFields : List String :=
  ["x", "x", "x", "MTM3101", "01208A", "Calculo", "4", "50", "30", "", "", "", "", "Ana"]

/-- A 14-cell row whose credits cell is not numeric. -/
def badCreditsFields : List String :=
  ["", "", "", "CID", "TID", "T", "cr", "2", "3", "", "", "", "", ""]

/-- A 14-cell row whose professors cell contains an interior blank line. -/
def blankLineFields : List String :=
  ["", "", "", "CID", "TID", "T", "1", "2", "3", "", "", "", "", "A\n\nB"]

/-- A session oracle where every Florianopolis session fails and every
other session succeeds with an empty class list. -/
def runW : Campus → String → PResult (Campus × String × List Class) :=
  fun campus term =>
    match campus with
    | .FLO => .error .tableNotFound
    | _ => .ok (campus, term, [])

/-! ### Helper lemmas -/

/-- Inversion for successful row parses: a row that parses to a `Class`
has at least 14 cells, and the waiting, credits, capacity, enrolled and
professors fields are the stated functions of the corresponding cells. -/
lemma fromFields_ok_inv (fields : List String) (c : Class)
    (h : Class.fromFields fields = .ok c) :
    14 ≤ fields.length ∧
    (∀ w, fields.get? 11 = some w → parseWaiting w = .ok c.waiting) ∧
    (∀ s, fields.get? 6 = some s → parseU32 s = some c.course.credits) ∧
    (∀ s, fields.get? 7 = some s → parseU32 s = some c.capacity) ∧
    (∀ s, fields.get? 8 = some s → parseU32 s = some c.enrolled) ∧
    (∀ s, fields.get? 13 = some s → c.professors = (rustLines s).map rustTrim) := by
  unfold Class.fromFields at h
  split at h
  · exact PResult.noConfusion h
  rename_i course_id h3
  split at h
  · exact PResult.noConfusion h
  rename_i class_id h4
  split at h
  · exact PResult.noConfusion h
  rename_i cell5 h5
  split at h
  · exact PResult.noConfusion h
  rename_i title hT
  split at h
  · exact PResult.noConfusion h
  rename_i cell6 h6
  split at h
  · exact PResult.noConfusion h
  rename_i credits hp6
  split at h
  · exact PResult.noConfusion h
  rename_i cell7 h7
  split at h
  · exact PResult.noConfusion h
  rename_i capacity hp7
  split at h
  · exact PResult.noConfusion h
  rename_i cell8 h8
  split at h
  · exact PResult.noConfusion h
  rename_i enrolled hp8
  split at h
  · exact PResult.noConfusion h
  rename_i cell11 h11
  split at h
  · exact PResult.noConfusion h
  rename_i waiting hw
  split at h
  · exact PResult.noConfusion h
  rename_i cell12 h12
  split at h
  · exact PResult.noConfusion h
  rename_i times ht
  split at h
  · exact PResult.noConfusion h
  rename_i cell13 h13
  obtain rfl := PResult.ok.inj h
  refine ⟨?_, ?_, ?_, ?_, ?_, ?_⟩
  · obtain ⟨hlt, -⟩ := List.get?_eq_some.mp h13
    omega
  · intro w hw'
    rw [h11] at hw'
    obtain rfl := Option.some.inj hw'
    exact hw
  · intro s hs
    rw [h6] at hs
    obtain rfl := Option.some.inj hs
    exact hp6
  · intro s hs
    rw [h7] at hs
    obtain rfl := Option.some.inj hs
    exact hp7
  · intro s hs
    rw [h8] at hs
    obtain rfl := Option.some.inj hs
    exact hp8
  · intro s hs
    rw [h13] at hs
    obtain rfl := Option.some.inj hs
    rfl

/-- The page computation at a zero result count. -/
lemma pages_of_entries_zero : pages_of_entries 0 = 0 := by
  have h : ((0 : Nat) : ℚ) / 50 = 0 := by norm_num
  unfold pages_of_entries fpRound
  rw [h]
  norm_num

/-- Integers up to the 53-bit significand limit are binary64 fixed
points: rounding them is the identity. -/
lemma fpRound_natCast (k : Nat) (hk : k < 2 ^ 53) : fpRound (k : ℚ) = k := by
  rcases Nat.eq_zero_or_pos k with rfl | hpos
  · unfold fpRound fpExp
    norm_num
  have h1 : (1 : ℚ) ≤ (k : ℚ) := by exact_mod_cast hpos
  have hkq_pos : (0 : ℚ) < (k : ℚ) := by positivity
  have hlog_nonneg : 0 ≤ Int.log 2 (k : ℚ) := by
    rw [← Int.zpow_le_iff_le_log (by norm_num) hkq_pos]
    simpa using h1
  have hlog_le : Int.log 2 (k : ℚ) ≤ 52 := by
    have hz : (2 : ℚ) ^ (53 : ℤ) = ((2 ^ 53 : Nat) : ℚ) := by
      rw [show (53 : ℤ) = ((53 : ℕ) : ℤ) from rfl, zpow_natCast]
      push_cast
      ring
    have hk53 : (k : ℚ) < (2 : ℚ) ^ (53 : ℤ) := by
      rw [hz]
      exact_mod_cast hk
    have := (Int.lt_zpow_iff_log_lt (b := 2) (by norm_num) hkq_pos).mp hk53
    omega
  obtain ⟨m, hm⟩ : ∃ m : ℕ, fpExp (k : ℚ) = -(m : ℤ) := by
    refine ⟨(-(fpExp (k : ℚ))).toNat, ?_⟩
    unfold fpExp
    omega
  unfold fpRound
  rw [hm, zpow_neg, zpow_natCast, div_eq_mul_inv, inv_inv]
  have hcast : ((k : ℚ) * (2 : ℚ) ^ m) = ((k * 2 ^ m : ℕ) : ℚ) := by push_cast; ring
  rw [hcast, round_natCast]
  push_cast
  have hpow : ((2 : ℚ) ^ m) ≠ 0 := by positivity
  field_simp

/-- The rounding error of one binary64 operation is at most half an
ulp, whatever the tie-breaking rule. -/
lemma abs_fpRound_sub_le (q : ℚ) : |fpRound q - q| ≤ 2 ^ (fpExp q) / 2 := by
  unfold fpRound
  have hpow_pos : (0 : ℚ) < 2 ^ (fpExp q) := zpow_pos (by norm_num) _
  have hq : q = q / 2 ^ (fpExp q) * 2 ^ (fpExp q) := by field_simp
  calc |(round (q / 2 ^ (fpExp q)) : ℚ) * 2 ^ (fpExp q) - q|
      = |(round (q / 2 ^ (fpExp q)) : ℚ) - q / 2 ^ (fpExp q)| * |(2 : ℚ) ^ (fpExp q)| := by
        rw [← abs_mul, sub_mul, ← hq]
    _ ≤ (1 / 2) * (2 : ℚ) ^ (fpExp q) := by
        apply mul_le_mul
        · rw [abs_sub_comm]
          exact abs_sub_round _
        · exact le_of_eq (abs_of_pos hpow_pos)
        · exact abs_nonneg _
        · norm_num
    _ = 2 ^ (fpExp q) / 2 := by ring

/-- Sum of a constant map. -/
lemma sum_map_const_length {α : Type} (l : List α) (k : Nat) :
    (l.map (fun _ => k)).sum = l.length * k := by
  induction l with
  | nil => simp
  | cons a t ih => simp [ih, Nat.succ_mul, Nat.add_comm]

/-! ### The claims -/

/-- C2: the weekday match of `Time::from_str` maps codes 1 through 7 to
the weekday enum in the fixed order Sunday (1) through Saturday (7),
and every integer code outside 1..7 fails with `InvalidTime`. -/
theorem weekday_mapping (n : Int) :
    (parse_weekday 1 = .ok .sun ∧ parse_weekday 2 = .ok .mon ∧
     parse_weekday 3 = .ok .tue ∧ parse_weekday 4 = .ok .wed ∧
     parse_weekday 5 = .ok .thu ∧ parse_weekday 6 = .ok .fri ∧
     parse_weekday 7 = .ok .sat) ∧
    (n < 1 ∨ 7 < n → parse_weekday n = .error .invalidTime) := by
  constructor
  · exact ⟨by decide, by decide, by decide, by decide, by decide, by decide, by decide⟩
  · intro h
    unfold parse_weekday
    rw [if_neg (by omega), if_neg (by omega), if_neg (by omega), if_neg (by omega),
      if_neg (by omega), if_neg (by omega), if_neg (by omega)]

/-- Witness for C2 at the concrete codes 2 and 0. -/
theorem weekday_mapping_witness :
    parse_weekday 2 = .ok .mon ∧ parse_weekday 0 = .error .invalidTime :=
  ⟨(weekday_mapping 0).1.2.1, (weekday_mapping 0).2 (by omega)⟩

/-- C7: for the input "2.0800-4 / A1-101", `Time::from_str` returns the
slot with weekday Monday (source code 2), start time 08:00, credit span
4 and place "A1-101". -/
theorem time_from_str_round_trip :
    Time.from_str "2.0800-4 / A1-101" =
      .ok { weekday := .mon, time := ⟨8, 0⟩, credits := 4, place := "A1-101" } := by
  decide

/-- C5: a document with no tbody element carrying the fixed id always
yields `TableNotFound` — in particular never an empty class list. -/
theorem missing_table_not_found (doc : List HNode)
    (h : ∀ n ∈ allNodes doc, ¬ isTargetTbody n) :
    classes_from_html doc = .error .tableNotFound := by
  unfold classes_from_html
  rw [List.find?_eq_none.mpr h]

/-- Witness for C5: a concrete document without the target table. -/
theorem missing_table_not_found_witness :
    classes_from_html [HNode.elem "div" [] [HNode.text "no table"]] = .error .tableNotFound :=
  missing_table_not_found _ (by decide)

/-- C8: if the probe response has no result-count element, or its
content does not parse as an unsigned integer, `Cagr::page_count`
returns zero pages successfully instead of an error. -/
theorem page_count_soft_failure (doc : List HNode)
    (h : countNode doc = none ∨
      ∃ nd, countNode doc = some nd ∧ parseU32 (innerHtml nd) = none) :
    Cagr.page_count doc = .ok 0 := by
  have hent : countEntries doc = 0 := by
    unfold countEntries
    rcases h with h | ⟨nd, hnd, hp⟩
    · rw [h]
      rfl
    · rw [hnd, Option.some_bind, hp]
      rfl
  unfold Cagr.page_count
  rw [hent, pages_of_entries_zero]

/-- Witness for C8: a concrete probe document without the count span. -/
theorem page_count_soft_failure_witness :
    Cagr.page_count [HNode.elem "div" [] []] = .ok 0 :=
  page_count_soft_failure _ (Or.inl rfl)

/-- C6: in `scrape_last_n_terms` every (term, campus) pair contributes
exactly its own session outcome `run campus term` to the collected
result list, whatever the oracle returns for every other pair — so one
pair's failure cannot remove, cancel or alter another pair's outcome —
and all `n × |campi|` outcomes are present. -/
theorem scrape_sessions_independent
    (run : Campus → String → PResult (Campus × String × List Class))
    (n : Nat) (terms : List String) (campi : List Campus)
    (term : String) (campus : Campus)
    (hterm : term ∈ terms.take n) (hcampus : campus ∈ campi) :
    run campus term ∈ scrape_last_n_terms run n terms campi ∧
    (scrape_last_n_terms run n terms campi).length = (terms.take n).length * campi.length := by
  constructor
  · exact List.mem_flatMap.mpr ⟨term, hterm, List.mem_map_of_mem _ hcampus⟩
  · unfold scrape_last_n_terms
    rw [List.length_flatMap]
    rw [show (List.length ∘ fun term => campi.map (fun campus => run campus term)) =
        fun _ => campi.length from by funext t; simp]
    rw [sum_map_const_length]

/-- Witness for C6: with an oracle failing exactly on Florianopolis,
the Joinville outcome of the same term is still present and the result
list still has one entry per pair. -/
theorem scrape_sessions_independent_witness :
    runW .JOI "t" ∈ scrape_last_n_terms runW 1 ["t"] [.FLO, .JOI] ∧
    (scrape_last_n_terms runW 1 ["t"] [.FLO, .JOI]).length =
      ((["t"] : List String).take 1).length * ([.FLO, .JOI] : List Campus).length :=
  scrape_sessions_independent runW 1 ["t"] [.FLO, .JOI] "t" .JOI (by decide) (by decide)

/-- C4: a row whose waiting cell is the empty string parses with
waiting = 0, while an empty or non-numeric credits, capacity or
enrolled cell makes the row parse fail with the numeric-parse error as
soon as that cell's read is reached (the reads before it — cells 3, 4
and the course title — must have succeeded for evaluation to get
there). -/
theorem waiting_default_and_numeric_failures :
    (∀ fields c w, Class.fromFields fields = .ok c → fields.get? 11 = some w →
      w = "" → c.waiting = 0) ∧
    (∀ fields s3 s4 s5 t s6, fields.get? 3 = some s3 → fields.get? 4 = some s4 →
      fields.get? 5 = some s5 → ((rustLines s5).map rustTrim).head? = some t →
      fields.get? 6 = some s6 → parseU32 s6 = none →
      Class.fromFields fields = .error .parseIntError) ∧
    (∀ fields s3 s4 s5 t s6 n6 s7, fields.get? 3 = some s3 → fields.get? 4 = some s4 →
      fields.get? 5 = some s5 → ((rustLines s5).map rustTrim).head? = some t →
      fields.get? 6 = some s6 → parseU32 s6 = some n6 →
      fields.get? 7 = some s7 → parseU32 s7 = none →
      Class.fromFields fields = .error .parseIntError) ∧
    (∀ fields s3 s4 s5 t s6 n6 s7 n7 s8, fields.get? 3 = some s3 → fields.get? 4 = some s4 →
      fields.get? 5 = some s5 → ((rustLines s5).map rustTrim).head? = some t →
      fields.get? 6 = some s6 → parseU32 s6 = some n6 →
      fields.get? 7 = some s7 → parseU32 s7 = some n7 →
      fields.get? 8 = some s8 → parseU32 s8 = none →
      Class.fromFields fields = .error .parseIntError) := by
  refine ⟨?_, ?_, ?_, ?_⟩
  · intro fields c w hok h11 hempty
    obtain ⟨-, hwaiting, -⟩ := fromFields_ok_inv fields c hok
    have h := hwaiting w h11
    rw [hempty] at h
    unfold parseWaiting at h
    rw [if_pos rfl] at h
    exact (Except.ok.inj h).symm
  · intro fields s3 s4 s5 t s6 h3 h4 h5 hT h6 hp6
    simp only [Class.fromFields, h3, h4, h5, hT, h6, hp6]
  · intro fields s3 s4 s5 t s6 n6 s7 h3 h4 h5 hT h6 hp6 h7 hp7
    simp only [Class.fromFields, h3, h4, h5, hT, h6, hp6, h7, hp7]
  · intro fields s3 s4 s5 t s6 n6 s7 n7 s8 h3 h4 h5 hT h6 hp6 h7 hp7 h8 hp8
    simp only [Class.fromFields, h3, h4, h5, hT, h6, hp6, h7, hp7, h8, hp8]

/-- Witness for C4: the empty waiting cell of `wRowFields` yields
waiting = 0, and the non-numeric credits cell of `badCreditsFields`
yields the numeric-parse error. -/
theorem waiting_default_and_numeric_failures_witness :
    wClassA.waiting = 0 ∧ Class.fromFields badCreditsFields = .error .parseIntError :=
  ⟨waiting_default_and_numeric_failures.1 wRowFields wClassA "" (by decide) (by decide) rfl,
   waiting_default_and_numeric_failures.2.1 badCreditsFields "CID" "TID" "T" "T" "cr"
     (by decide) (by decide) (by decide) (by decide) (by decide) (by decide)⟩

/-- C9 counterexample: a successfully parsed row whose professor-names
cell contains an interior blank line does get an empty-string professor
entry — the line split only excludes the trailing line terminator, and
the outer cell trim only removes leading and trailing blank lines. -/
theorem professors_blank_line_cex :
    Class.fromFields blankLineFields =
      .ok { id := "TID"
            course := { id := "CID", title := "T", credits := 1 }
            labels := []
            capacity := 2
            enrolled := 3
            waiting := 0
            times := []
            professors := ["A", "", "B"] } ∧
    "" ∈ ["A", "", "B"] := by
  decide

/-- C9 (amended): the professors list is the trimmed lines of the
professor-names cell: an empty cell yields no entries (so a cell that
was only whitespace before the outer trim yields none), and an
empty-string entry occurs exactly when the cell has an interior blank
(whitespace-only) line. -/
theorem professors_one_per_line (fields : List String) (c : Class) (s : String)
    (hok : Class.fromFields fields = .ok c) (h13 : fields.get? 13 = some s) :
    (s = "" → c.professors = []) ∧
    ("" ∈ c.professors ↔ ∃ l ∈ rustLines s, rustTrim l = "") := by
  obtain ⟨-, -, -, -, -, hprof⟩ := fromFields_ok_inv fields c hok
  have hp := hprof s h13
  constructor
  · rintro rfl
    rw [hp]
    rfl
  · rw [hp, List.mem_map]

/-- Witness for C9 (amended) at the concrete row `wRowFields`. -/
theorem professors_one_per_line_witness :
    (("Ana" : String) = "" → wClassA.professors = []) ∧
    ("" ∈ wClassA.professors ↔ ∃ l ∈ rustLines "Ana", rustTrim l = "") :=
  professors_one_per_line wRowFields wClassA "Ana" (by decide) (by decide)

/-- C10 counterexample: a row with 13 cells (fewer than 14) whose title
cell is empty returns the `NoCourseTitle` parse error — it does not
panic, because the title check fails before any out-of-bounds read. -/
theorem short_row_error_cex :
    (List.replicate 13 "").length < 14 ∧
    Class.fromFields (List.replicate 13 "") = .error .noCourseTitle := by
  decide

/-- C10 (amended): `Class::from_html` reads cells at fixed indices up
to 13 with unchecked indexing, so a row with fewer than 14 cells never
parses successfully: the out-of-bounds read panics when reached — it
always is for rows with fewer than 4 cells — but an earlier fallible
step (missing course title, bad numeric cell) may return a parse error
first. -/
theorem short_row_never_ok (fields : List String) (hlen : fields.length < 14) :
    (∀ c, Class.fromFields fields ≠ .ok c) ∧
    (fields.length < 4 → Class.fromFields fields = .panicked) := by
  constructor
  · intro c hok
    exact absurd (fromFields_ok_inv fields c hok).1 (by omega)
  · intro h4
    have h3 : fields.get? 3 = none := List.get?_eq_none.mpr (by omega)
    simp only [Class.fromFields, h3]

/-- Witness for C10 (amended): the empty row panics. -/
theorem short_row_never_ok_witness :
    Class.fromFields ([] : List String) = .panicked :=
  (short_row_never_ok [] (by decide)).2 (by decide)

/-- C1: `Cagr::scrape` stops iterating as soon as the current page's
body is byte-for-byte identical to the immediately preceding page's
body (first conjunct); in particular, for the fetched body sequence
[A, B, B] with A ≠ B it parses exactly A and B, appending their rows in
page order, and the repeated B contributes no records (second
conjunct). -/
theorem scrape_stops_on_repeated_body
    (dom : String → List HNode) (c : Cagr) (A B : String)
    (rowsA rowsB : List Class)
    (hAB : A ≠ B)
    (hA : classes_from_html (dom A) = .ok rowsA)
    (hB : classes_from_html (dom B) = .ok rowsB) :
    (∀ fetch pageIndex rest entries,
      scrapeGo dom fetch (pageIndex :: rest) (some (fetch pageIndex)) entries = .ok entries) ∧
    c.scrape dom (fun i => [A, B, B].getD (i - 1) "") 3 =
      .ok (c.campus, c.term, rowsA ++ rowsB) := by
  constructor
  · intro fetch pageIndex rest entries
    simp [scrapeGo]
  · unfold Cagr.scrape
    rw [show (List.range 3).map (· + 1) = [1, 2, 3] from by decide]
    simp [scrapeGo, hA, hB, hAB]

/-- Witness for C1: the concrete two-page site `wDom` with repeated
third body stops after two pages and returns exactly the two classes. -/
theorem scrape_stops_on_repeated_body_witness :
    Cagr.scrape ⟨.FLO, "20241"⟩ wDom (fun i => ["pageA", "pageB", "pageB"].getD (i - 1) "") 3 =
      .ok (.FLO, "20241", [wClassA, wClassB]) :=
  (scrape_stops_on_repeated_body wDom ⟨.FLO, "20241"⟩ "pageA" "pageB" [wClassA] [wClassB]
    (by decide) (by decide) (by decide)).2

/-- C3: for every result count representable as a u32, the f64
computation of `Cagr::page_count` — `(count as f64 / 50.).ceil() as
usize` — equals exact ceiling division by 50: count 0 yields 0 pages,
50 yields 1 page, 51 yields 2 pages, and in general `⌈count / 50⌉`. -/
theorem page_count_ceiling (n : Nat) (hn : n < 2 ^ 32) :
    pages_of_entries n = (n + 49) / 50 := by
  rcases Nat.eq_zero_or_pos n with rfl | hpos
  · simpa using pages_of_entries_zero
  by_cases hdvd : n % 50 = 0
  · obtain ⟨k, hk⟩ : ∃ k, n = 50 * k := ⟨n / 50, by omega⟩
    subst hk
    have hq : ((50 * k : Nat) : ℚ) / 50 = (k : ℚ) := by
      push_cast
      field_simp
    unfold pages_of_entries
    rw [hq, fpRound_natCast k (by omega), Int.ceil_natCast, Int.toNat_natCast]
    omega
  · have hr1 : 1 ≤ n % 50 := by omega
    have hr49 : n % 50 ≤ 49 := by omega
    have hk50 : n = 50 * (n / 50) + n % 50 := (Nat.div_add_mod n 50).symm
    set k := n / 50 with hkdef
    set r := n % 50 with hrdef
    set q : ℚ := (n : ℚ) / 50 with hq
    have hqkr : q = (k : ℚ) + (r : ℚ) / 50 := by
      rw [hq, show ((n : ℚ)) = ((50 * k + r : Nat) : ℚ) from Nat.cast_inj.mpr hk50]
      push_cast
      ring
    have hrq1 : (1 : ℚ) ≤ (r : ℚ) := by exact_mod_cast hr1
    have hrq49 : (r : ℚ) ≤ 49 := by exact_mod_cast hr49
    have hk0 : (0 : ℚ) ≤ (k : ℚ) := Nat.cast_nonneg k
    have hq_pos : 0 < q := by
      rw [hqkr]
      linarith
    have h2to27 : ((2 : ℚ) ^ (27 : ℤ)) = 134217728 := by
      rw [show (27 : ℤ) = ((27 : ℕ) : ℤ) from rfl, zpow_natCast]
      norm_num
    have hq_lt : q < (2 : ℚ) ^ (27 : ℤ) := by
      have h1 : ((n : ℚ)) < 4294967296 := by exact_mod_cast hn
      rw [hq, h2to27, div_lt_iff₀ (by norm_num : (0 : ℚ) < 50)]
      linarith
    have hlog : Int.log 2 q ≤ 26 := by
      have := (Int.lt_zpow_iff_log_lt (b := 2) (by norm_num) hq_pos).mp hq_lt
      omega
    have hfpe : fpExp q ≤ -26 := by
      unfold fpExp
      omega
    have h226 : ((2 : ℚ) ^ (-26 : ℤ)) = 1 / 67108864 := by
      rw [show (-26 : ℤ) = -((26 : ℕ) : ℤ) from rfl, zpow_neg, zpow_natCast]
      norm_num
    have herr : |fpRound q - q| ≤ 1 / 134217728 := by
      refine le_trans (abs_fpRound_sub_le q) ?_
      have hmono : (2 : ℚ) ^ fpExp q ≤ (2 : ℚ) ^ (-26 : ℤ) :=
        zpow_le_zpow_right₀ (by norm_num) hfpe
      rw [h226] at hmono
      linarith
    obtain ⟨hlo, hhi⟩ := abs_le.mp herr
    have hceil : ⌈fpRound q⌉ = (k : ℤ) + 1 := by
      rw [Int.ceil_eq_iff]
      constructor
      · push_cast
        have hlb : (k : ℚ) + 1 / 50 ≤ q := by
          rw [hqkr]
          linarith
        linarith
      · push_cast
        have hub : q ≤ (k : ℚ) + 49 / 50 := by
          rw [hqkr]
          linarith
        linarith
    unfold pages_of_entries
    rw [← hq, hceil]
    omega

/-- Witness for C3 at the concrete count 51 (one entry past one page). -/
theorem page_count_ceiling_witness : pages_of_entries 51 = 2 := by
  have h := page_count_ceiling 51 (by norm_num)
  simpa using h

end Matrufsc
